import Mathlib

/-!
Verification of the rotating log sink in `rutil/auto_roll_logger.cc`
(namespace `rocksutil`).

The C++ code is shallowly embedded: the filesystem/clock collaborator
(`Env`) and the underlying writer (`Logger`) are explicit pieces of data
that are threaded through every operation, machine integers are `Nat`
(no arithmetic here comes close to overflowing `uint64_t`), and a null
pointer dereference is modelled by returning `none`.  A variadic call
`(format, va_list)` is modelled by the string the underlying writer
would format from it, since formatting itself is delegated verbatim to
the underlying writer.
-/

namespace Rocksutil

/-- Model of `rocksutil::Status`: `ok()` statuses versus the error kinds
this file produces or receives from the `Env` collaborator. -/
inductive Status where
  | ok : Status
  | notSupported (msg : String) : Status
  | ioError (msg : String) : Status
  | notFound (msg : String) : Status
deriving DecidableEq, Repr

/-- `Status::ok()`. -/
def Status.isOk : Status → Bool
  | .ok => true
  | _ => false

/-- Sentinel `Logger::kDoNotSupportGetLogFileSize`.  Modelled from the
spec: the header declaring it is not under `src/`; the spec only says
`currentSizeOrUnsupported() -> size | SENTINEL`, so the sentinel is the
maximum `size_t` value, distinguishable from every real file size. -/
def kDoNotSupportGetLogFileSize : Nat := 2 ^ 64 - 1

/-- Model of the underlying writer handle (`std::shared_ptr<Logger>`
target).  `log_file_size` is what `GetLogFileSize()` reports (the
sentinel when unsupported), `msgs` the formatted lines appended through
`Logv`, `info_log_level` the minimum level set via `SetInfoLogLevel`. -/
structure Logger where
  log_file_size : Nat
  msgs : List String
  info_log_level : Nat
deriving DecidableEq, Repr

/-- `Logger::GetLogFileSize()`. -/
def Logger.GetLogFileSize (l : Logger) : Nat := l.log_file_size

/-- The underlying writer's `Logv`: appends the formatted line and grows
the reported size accordingly (a writer that does not support size
reporting keeps reporting the sentinel). -/
def Logger.Logv (l : Logger) (msg : String) : Logger :=
  { l with
    msgs := l.msgs ++ [msg],
    log_file_size :=
      if l.log_file_size = kDoNotSupportGetLogFileSize then l.log_file_size
      else l.log_file_size + msg.length }

/-- `Logger::SetInfoLogLevel`. -/
def Logger.SetInfoLogLevel (l : Logger) (lvl : Nat) : Logger :=
  { l with info_log_level := lvl }

/-- Level a freshly opened writer starts with, before any
`SetInfoLogLevel` call. -/
def defaultInfoLogLevel : Nat := 0

/-- Model of the `Env` collaborator: the clock reading `NowMicros()`
returns, the set of existing files, the set of existing directories, and
two fault-injection functions describing how `NewLogger` behaves at a
given path (whether opening fails, and whether the opened writer
supports `GetLogFileSize`). -/
structure Env where
  now_micros : Nat
  files : List String
  dirs : List String
  open_fails : String → Bool
  size_supported : String → Bool

/-- `Env::NowMicros()`. -/
def Env.NowMicros (env : Env) : Nat := env.now_micros

/-- `Env::FileExists`. -/
def Env.FileExists (env : Env) (fname : String) : Status :=
  if fname ∈ env.files then .ok else .notFound fname

/-- `Env::RenameFile`: moves `src` onto `target` (overwriting), fails if
`src` does not exist. -/
def Env.RenameFile (env : Env) (src target : String) : Status × Env :=
  if src ∈ env.files then
    let fs := env.files.erase src
    (.ok, { env with files := if target ∈ fs then fs else target :: fs })
  else (.ioError src, env)

/-- `Env::CreateDirIfMissing` (idempotent). -/
def Env.CreateDirIfMissing (env : Env) (d : String) : Status × Env :=
  (.ok, { env with dirs := if d ∈ env.dirs then env.dirs else d :: env.dirs })

/-- `Env::NewLogger(fname, &result)`: on success truncates/creates the
file at `fname` and hands back a fresh writer; on failure clears the
caller's handle.  Modelled from the spec: the collaborator contract is
`openWriter(path) -> Status×Handle`; on failure no valid handle is
produced. -/
def Env.NewLogger (env : Env) (fname : String) : Status × Option Logger × Env :=
  if env.open_fails fname then (.ioError fname, none, env)
  else
    (.ok,
     some { log_file_size :=
              if env.size_supported fname then 0 else kDoNotSupportGetLogFileSize,
            msgs := [], info_log_level := defaultInfoLogLevel },
     { env with files := if fname ∈ env.files then env.files else fname :: env.files })

/-- `InfoLogFileName`: the canonical active log path. -/
def InfoLogFileName (log_path : String) : String := log_path ++ "/LOG"

/-- Decimal rendering of a `uint64_t`, as produced by
`snprintf(buf, sizeof(buf), "%llu", ts)` (the 50-byte buffer always
suffices for a 64-bit value). -/
def decimalString (n : Nat) : String :=
  if n = 0 then "0" else String.mk (((Nat.digits 10 n).map Nat.digitChar).reverse)

/-- `OldInfoLogFileName`: the archived path for a rolled-away file. -/
def OldInfoLogFileName (log_path : String) (ts : Nat) : String :=
  log_path ++ "/LOG.old." ++ decimalString ts

/-! ### Injectivity of the archived-name rendering -/

theorem digitChar_inj_fin :
    ∀ a b : Fin 10, Nat.digitChar a.val = Nat.digitChar b.val → a = b := by
  decide

theorem digitChar_inj_of_lt {a b : Nat} (ha : a < 10) (hb : b < 10)
    (h : Nat.digitChar a = Nat.digitChar b) : a = b := by
  have := digitChar_inj_fin ⟨a, ha⟩ ⟨b, hb⟩ h
  exact congrArg Fin.val this

theorem map_digitChar_inj :
    ∀ l₁ l₂ : List Nat, (∀ x ∈ l₁, x < 10) → (∀ x ∈ l₂, x < 10) →
      l₁.map Nat.digitChar = l₂.map Nat.digitChar → l₁ = l₂ := by
  intro l₁
  induction l₁ with
  | nil => intro l₂ _ _ h; cases l₂ <;> simp_all
  | cons a t ih =>
    intro l₂ h₁ h₂ h
    cases l₂ with
    | nil => simp_all
    | cons b t₂ =>
      simp only [List.map_cons, List.cons.injEq] at h
      have ha : a = b :=
        digitChar_inj_of_lt (h₁ a (by simp)) (h₂ b (by simp)) h.1
      have ht : t = t₂ :=
        ih t₂ (fun x hx => h₁ x (by simp [hx])) (fun x hx => h₂ x (by simp [hx])) h.2
      simp [ha, ht]

theorem decimalString_ne_zero_repr {n : Nat} (hn : n ≠ 0) : decimalString n ≠ "0" := by
  intro h
  simp only [decimalString, hn, if_false] at h
  have hdata : (((Nat.digits 10 n).map Nat.digitChar).reverse) = ['0'] :=
    congrArg String.data h
  have hmap : (Nat.digits 10 n).map Nat.digitChar = ['0'] := by
    have := congrArg List.reverse hdata
    simpa using this
  rcases List.map_eq_cons_iff.mp hmap with ⟨d, rest, hds, hd0, hrest⟩
  have hrest' : rest = [] := List.map_eq_nil_iff.mp hrest
  have hlt : d < 10 :=
    Nat.digits_lt_base (by norm_num) (by rw [hds]; simp)
  have hd : d = 0 := by
    have : Nat.digitChar d = Nat.digitChar 0 := by simpa using hd0
    exact digitChar_inj_of_lt hlt (by norm_num) this
  have hfin : Nat.digits 10 n = [0] := by rw [hds, hrest', hd]
  have hofd := Nat.ofDigits_digits 10 n
  rw [hfin] at hofd
  simp [Nat.ofDigits] at hofd
  exact hn hofd.symm

theorem decimalString_inj {m n : Nat} (h : decimalString m = decimalString n) :
    m = n := by
  by_cases hm : m = 0
  · by_cases hn : n = 0
    · rw [hm, hn]
    · exfalso
      exact decimalString_ne_zero_repr hn (by rw [← h, hm, decimalString]; simp)
  · by_cases hn : n = 0
    · exfalso
      exact decimalString_ne_zero_repr hm (by rw [h, hn, decimalString]; simp)
    · simp only [decimalString, hm, hn, if_false] at h
      have hdata := congrArg String.data h
      simp only at hdata
      have hrev := congrArg List.reverse hdata
      simp only [List.reverse_reverse] at hrev
      have hdig : Nat.digits 10 m = Nat.digits 10 n :=
        map_digitChar_inj _ _
          (fun x hx => Nat.digits_lt_base (by norm_num) hx)
          (fun x hx => Nat.digits_lt_base (by norm_num) hx) hrev
      exact Nat.digits_inj_iff.mp hdig

theorem string_append_left_cancel {p s t : String} (h : p ++ s = p ++ t) :
    s = t := by
  have hdata : (p ++ s).data = (p ++ t).data := congrArg String.data h
  have hs : (p ++ s).data = p.data ++ s.data := by
    cases p; cases s; rfl
  have ht : (p ++ t).data = p.data ++ t.data := by
    cases p; cases t; rfl
  rw [hs, ht] at hdata
  have h' := List.append_cancel_left hdata
  cases s; cases t; exact congrArg String.mk h'

theorem OldInfoLogFileName_inj (dir : String) {t u : Nat}
    (h : OldInfoLogFileName dir t = OldInfoLogFileName dir u) : t = u := by
  unfold OldInfoLogFileName at h
  have h1 : dir ++ ("/LOG.old." ++ decimalString t) =
      dir ++ ("/LOG.old." ++ decimalString u) := by
    rw [← String.append_assoc, ← String.append_assoc]
    exact h
  have h2 := string_append_left_cancel h1
  have h3 := string_append_left_cancel h2
  exact decimalString_inj h3

/-! ### Finding a free archived name -/

/-- The search loop of `RollLogFile`: starting from `now`, increments
the timestamp while a file already exists at the computed archived path.
The source loops unboundedly; since only finitely many files exist and
distinct timestamps render to distinct names the loop terminates, which
the model makes explicit with a fuel argument (callers pass
`env.files.length + 1`, which is proved sufficient below). -/
def rollFindName (env : Env) (log_path : String) : Nat → Nat → String
  | now, 0 => OldInfoLogFileName log_path now
  | now, fuel + 1 =>
    let old_fname := OldInfoLogFileName log_path now
    if (env.FileExists old_fname).isOk then rollFindName env log_path (now + 1) fuel
    else old_fname

theorem FileExists_isOk (env : Env) (f : String) :
    (env.FileExists f).isOk = true ↔ f ∈ env.files := by
  unfold Env.FileExists
  split <;> simp_all [Status.isOk]

theorem exists_free_archived_name (env : Env) (dir : String) (now : Nat) :
    ∃ k, k ≤ env.files.length ∧ OldInfoLogFileName dir (now + k) ∉ env.files := by
  by_contra hc
  push_neg at hc
  have hsub : ∀ k ∈ Finset.range (env.files.length + 1),
      OldInfoLogFileName dir (now + k) ∈ env.files.toFinset := by
    intro k hk
    rw [List.mem_toFinset]
    exact hc k (by simpa using Nat.lt_succ_iff.mp (Finset.mem_range.mp hk))
  have hinj : Set.InjOn (fun k : Nat => OldInfoLogFileName dir (now + k))
      (Finset.range (env.files.length + 1)) := by
    intro a _ b _ hab
    have := OldInfoLogFileName_inj dir hab
    omega
  have hcard := Finset.card_le_card_of_injOn _ hsub hinj
  rw [Finset.card_range] at hcard
  have hle := env.files.toFinset_card_le
  omega

theorem rollFindName_spec (env : Env) (dir : String) :
    ∀ fuel now, (∃ k, k < fuel ∧ OldInfoLogFileName dir (now + k) ∉ env.files) →
      ∃ k, rollFindName env dir now fuel = OldInfoLogFileName dir (now + k) ∧
        OldInfoLogFileName dir (now + k) ∉ env.files ∧
        ∀ j, j < k → OldInfoLogFileName dir (now + j) ∈ env.files := by
  intro fuel
  induction fuel with
  | zero => intro now h; omega
  | succ fuel ih =>
    intro now h
    by_cases h0 : OldInfoLogFileName dir now ∈ env.files
    · have hex : (env.FileExists (OldInfoLogFileName dir now)).isOk = true :=
        (FileExists_isOk env _).mpr h0
      obtain ⟨k, hk, hkfree⟩ := h
      have hkpos : k ≠ 0 := by
        intro h'; rw [h'] at hkfree; simp at hkfree; exact hkfree h0
      have hshift : ∃ k, k < fuel ∧ OldInfoLogFileName dir (now + 1 + k) ∉ env.files := by
        refine ⟨k - 1, by omega, ?_⟩
        have : now + 1 + (k - 1) = now + k := by omega
        rw [this]; exact hkfree
      obtain ⟨k', hk'eq, hk'free, hk'min⟩ := ih (now + 1) hshift
      refine ⟨k' + 1, ?_, ?_, ?_⟩
      · show rollFindName env dir now (fuel + 1) = _
        unfold rollFindName
        simp only [hex, if_true]
        rw [hk'eq]
        congr 1
        omega
      · have : now + (k' + 1) = now + 1 + k' := by omega
        rw [this]; exact hk'free
      · intro j hj
        cases j with
        | zero => simpa using h0
        | succ j' =>
          have : now + (j' + 1) = now + 1 + j' := by omega
          rw [this]
          exact hk'min j' (by omega)
    · refine ⟨0, ?_, by simpa using h0, by omega⟩
      show rollFindName env dir now (fuel + 1) = _
      unfold rollFindName
      have hex : (env.FileExists (OldInfoLogFileName dir now)).isOk = false := by
        rw [Bool.eq_false_iff]
        intro hc
        exact h0 ((FileExists_isOk env _).mp hc)
      simp only [hex]
      simp

/-! ### The rotating sink -/

/-- State of `rocksutil::AutoRollLogger`.  Field names follow the
members of the class; `call_NowMicros_every_N_records` is the fixed
amortization constant declared in the header (which is not under
`src/`), kept symbolic here. -/
structure AutoRollLogger where
  log_path : String
  log_fname : String
  kMaxLogFileSize : Nat
  kLogFileTimeToRoll : Nat
  status : Status
  logger : Option Logger
  ctime : Nat
  cached_now : Nat
  cached_now_access_count : Nat
  call_NowMicros_every_N_records : Nat
  headers : List String
  info_log_level : Nat
deriving DecidableEq, Repr

/-- `AutoRollLogger::GetStatus()`. -/
def AutoRollLogger.GetStatus (st : AutoRollLogger) : Status := st.status

/-- `AutoRollLogger::ResetLogger()`: reopens a writer at the canonical
active path, rejects one that cannot report its size, and on success
records the current time (in seconds) as the epoch start and resets the
clock-access counter.  `none` models the null dereference that would
occur if `NewLogger` reported success without producing a writer. -/
def AutoRollLogger.ResetLogger (env : Env) (st : AutoRollLogger) :
    Option (AutoRollLogger × Env) :=
  match env.NewLogger st.log_fname with
  | (s, lg, env1) =>
    let st1 := { st with status := s, logger := lg }
    if ¬ s.isOk then some (st1, env1)
    else
      match lg with
      | none => none
      | some l =>
        let st2 :=
          if l.GetLogFileSize = kDoNotSupportGetLogFileSize then
            { st1 with status :=
                .notSupported "The underlying logger does not support GetLogFileSize()" }
          else st1
        if st2.status.isOk then
          some ({ st2 with
                   cached_now := env1.NowMicros / 1000000,
                   ctime := env1.NowMicros / 1000000,
                   cached_now_access_count := 0 }, env1)
        else some (st2, env1)

/-- `AutoRollLogger::RollLogFile()`: finds the first archived name,
starting at the current clock reading, at which no file exists, and
renames the active file to it (ignoring the rename's status).  Returns
the chosen archived name together with the updated filesystem. -/
def AutoRollLogger.RollLogFile (env : Env) (st : AutoRollLogger) : String × Env :=
  let now := env.NowMicros
  let old_fname := rollFindName env st.log_path now (env.files.length + 1)
  let r := env.RenameFile st.log_fname old_fname
  (old_fname, r.2)

/-- `MAXBUFFERSIZE` from `AutoRollLogger::ValistToString`. -/
def MAXBUFFERSIZE : Nat := 1024

/-- `AutoRollLogger::ValistToString`: `vsnprintf` into a 1024-byte
buffer writes at most 1023 characters plus the terminating NUL, so the
formatted message is truncated to 1023 characters. -/
def AutoRollLogger.ValistToString (msg : String) : String :=
  String.mk (msg.data.take (MAXBUFFERSIZE - 1))

/-- `AutoRollLogger::LogInternal`: writes one message to the current
writer (`none` models the null dereference when there is none). -/
def AutoRollLogger.LogInternal (st : AutoRollLogger) (msg : String) :
    Option AutoRollLogger :=
  match st.logger with
  | none => none
  | some l => some { st with logger := some (l.Logv msg) }

/-- The loop body of `WriteHeaderInfo`, replaying a list of retained
headers one `LogInternal` call at a time. -/
def AutoRollLogger.writeHeaderLoop (st : AutoRollLogger) :
    List String → Option AutoRollLogger
  | [] => some st
  | h :: t =>
    match st.LogInternal h with
    | none => none
    | some st1 => st1.writeHeaderLoop t

/-- `AutoRollLogger::WriteHeaderInfo()`: replays every retained header,
in insertion order, into the current writer. -/
def AutoRollLogger.WriteHeaderInfo (st : AutoRollLogger) : Option AutoRollLogger :=
  st.writeHeaderLoop st.headers

/-- `AutoRollLogger::LogExpired()`: refreshes the cached "now" from the
clock only once the access counter has reached the amortization
constant, then compares the cached "now" against
`ctime_ + kLogFileTimeToRoll`. -/
def AutoRollLogger.LogExpired (env : Env) (st : AutoRollLogger) :
    Bool × AutoRollLogger :=
  let st1 :=
    if st.call_NowMicros_every_N_records ≤ st.cached_now_access_count then
      { st with cached_now := env.NowMicros / 1000000, cached_now_access_count := 0 }
    else st
  let st2 := { st1 with cached_now_access_count := st1.cached_now_access_count + 1 }
  (decide (st2.ctime + st2.kLogFileTimeToRoll ≤ st2.cached_now), st2)

/-- The roll branch of `AutoRollLogger::Logv` (source lines 87–94 plus
the final write): rename the current file aside, re-run `ResetLogger`
against the now-empty canonical path, abandon the call silently if that
fails, otherwise replay the headers and write the message through the
fresh writer. -/
def AutoRollLogger.doRoll (env : Env) (st : AutoRollLogger) (msg : String) :
    Option (AutoRollLogger × Env × Bool) :=
  match st.ResetLogger (AutoRollLogger.RollLogFile env st).2 with
  | none => none
  | some (st2, env2) =>
    if ¬ st2.status.isOk then some (st2, env2, true)
    else
      match st2.WriteHeaderInfo with
      | none => none
      | some st3 =>
        match st3.logger with
        | none => none
        | some l => some ({ st3 with logger := some (l.Logv msg) }, env2, true)

/-- `AutoRollLogger::Logv`: evaluates the roll predicate (with C++
short-circuit evaluation), rotates if it fires, then writes the message
through the current writer.  The entry `assert(GetStatus().ok())` is a
release no-op.  The returned `Bool` records whether the roll branch was
taken; `none` models a null dereference of the writer handle. -/
def AutoRollLogger.Logv (env : Env) (st : AutoRollLogger) (msg : String) :
    Option (AutoRollLogger × Env × Bool) :=
  let e := if 0 < st.kLogFileTimeToRoll then st.LogExpired env else (false, st)
  let expired := e.1
  let st1 := e.2
  let trigger : Option Bool :=
    if expired then some true
    else if 0 < st1.kMaxLogFileSize then
      match st1.logger with
      | none => none
      | some l => some (decide (st1.kMaxLogFileSize ≤ l.GetLogFileSize))
    else some false
  match trigger with
  | none => none
  | some false =>
    match st1.logger with
    | none => none
    | some l => some ({ st1 with logger := some (l.Logv msg) }, env, false)
  | some true => AutoRollLogger.doRoll env st1 msg

/-- `AutoRollLogger::LogHeader`: eagerly formats the message into a
retained (truncated) string, appends it to the header sequence, and
writes the original message to the current writer. -/
def AutoRollLogger.LogHeader (st : AutoRollLogger) (msg : String) :
    Option AutoRollLogger :=
  let data := AutoRollLogger.ValistToString msg
  match st.logger with
  | none => none
  | some l =>
    some { st with headers := st.headers ++ [data], logger := some (l.Logv msg) }

/-- Model of the `AutoRollLogger` constructor.  Modelled from the spec:
the constructor is declared in `auto_roll_logger.h`, which is not under
`src/`.  Per the spec (§4.1, §4.3) the sink is created with its
configuration and establishes its initial status by running
Initialize/Reset against the canonical active path; the factory then
inspects that initial status. -/
def mkAutoRollLogger (env : Env) (log_path : String)
    (log_max_size log_file_time_to_roll log_level nRecords : Nat) :
    Option (AutoRollLogger × Env) :=
  let st0 : AutoRollLogger :=
    { log_path := log_path,
      log_fname := InfoLogFileName log_path,
      kMaxLogFileSize := log_max_size,
      kLogFileTimeToRoll := log_file_time_to_roll,
      status := .ok,
      logger := none,
      ctime := env.NowMicros / 1000000,
      cached_now := env.NowMicros / 1000000,
      cached_now_access_count := 0,
      call_NowMicros_every_N_records := nRecords,
      headers := [],
      info_log_level := log_level }
  st0.ResetLogger env

/-- What `CreateLogger` leaves in the caller's `shared_ptr<Logger>*`
out-parameter: untouched, a rotating sink, or a plain writer. -/
inductive LoggerOut where
  | unset : LoggerOut
  | rolling (sink : AutoRollLogger) : LoggerOut
  | plain (l : Logger) : LoggerOut
deriving Repr

/-- `rocksutil::CreateLogger`: ensures the directory exists, then either
constructs a rotating sink (returned only if its initial status is ok)
or archives any pre-existing active file and opens a plain writer,
applying the requested minimum level. -/
def CreateLogger (log_path : String) (env : Env)
    (log_max_size log_file_time_to_roll log_level nRecords : Nat) :
    Option (Status × LoggerOut × Env) :=
  let fname := InfoLogFileName log_path
  let env1 := (env.CreateDirIfMissing log_path).2
  if 0 < log_file_time_to_roll ∨ 0 < log_max_size then
    match mkAutoRollLogger env1 log_path log_max_size log_file_time_to_roll
        log_level nRecords with
    | none => none
    | some (result, env2) =>
      let s := result.GetStatus
      if ¬ s.isOk then some (s, .unset, env2)
      else some (s, .rolling result, env2)
  else
    let env2 := (env1.RenameFile fname (OldInfoLogFileName log_path env1.NowMicros)).2
    match env2.NewLogger fname with
    | (s, lg, env3) =>
      match lg with
      | some l => some (s, .plain (l.SetInfoLogLevel log_level), env3)
      | none => some (s, .unset, env3)

/-! ### Frame and unfolding lemmas -/

theorem RenameFile_now (env : Env) (s t : String) :
    (env.RenameFile s t).2.now_micros = env.now_micros := by
  unfold Env.RenameFile; split <;> rfl

theorem RenameFile_dirs (env : Env) (s t : String) :
    (env.RenameFile s t).2.dirs = env.dirs := by
  unfold Env.RenameFile; split <;> rfl

theorem RenameFile_open_fails (env : Env) (s t : String) :
    (env.RenameFile s t).2.open_fails = env.open_fails := by
  unfold Env.RenameFile; split <;> rfl

theorem RenameFile_size_supported (env : Env) (s t : String) :
    (env.RenameFile s t).2.size_supported = env.size_supported := by
  unfold Env.RenameFile; split <;> rfl

theorem RollLogFile_env (env : Env) (st : AutoRollLogger) :
    (AutoRollLogger.RollLogFile env st).2 =
      (env.RenameFile st.log_fname (AutoRollLogger.RollLogFile env st).1).2 := rfl

theorem LogExpired_logger (env : Env) (st : AutoRollLogger) :
    (st.LogExpired env).2.logger = st.logger := by
  simp only [AutoRollLogger.LogExpired]; split <;> rfl

theorem LogExpired_status (env : Env) (st : AutoRollLogger) :
    (st.LogExpired env).2.status = st.status := by
  simp only [AutoRollLogger.LogExpired]; split <;> rfl

theorem LogExpired_headers (env : Env) (st : AutoRollLogger) :
    (st.LogExpired env).2.headers = st.headers := by
  simp only [AutoRollLogger.LogExpired]; split <;> rfl

theorem LogExpired_ctime (env : Env) (st : AutoRollLogger) :
    (st.LogExpired env).2.ctime = st.ctime := by
  simp only [AutoRollLogger.LogExpired]; split <;> rfl

theorem LogExpired_kMax (env : Env) (st : AutoRollLogger) :
    (st.LogExpired env).2.kMaxLogFileSize = st.kMaxLogFileSize := by
  simp only [AutoRollLogger.LogExpired]; split <;> rfl

theorem LogExpired_kTTR (env : Env) (st : AutoRollLogger) :
    (st.LogExpired env).2.kLogFileTimeToRoll = st.kLogFileTimeToRoll := by
  simp only [AutoRollLogger.LogExpired]; split <;> rfl

theorem LogExpired_log_fname (env : Env) (st : AutoRollLogger) :
    (st.LogExpired env).2.log_fname = st.log_fname := by
  simp only [AutoRollLogger.LogExpired]; split <;> rfl

theorem LogExpired_log_path (env : Env) (st : AutoRollLogger) :
    (st.LogExpired env).2.log_path = st.log_path := by
  simp only [AutoRollLogger.LogExpired]; split <;> rfl

theorem ResetLogger_open_fail (env : Env) (st : AutoRollLogger)
    (h : env.open_fails st.log_fname = true) :
    st.ResetLogger env =
      some ({ st with status := .ioError st.log_fname, logger := none }, env) := by
  unfold AutoRollLogger.ResetLogger Env.NewLogger
  simp [h, Status.isOk]

theorem ResetLogger_unsupported (env : Env) (st : AutoRollLogger)
    (h : env.open_fails st.log_fname = false)
    (h2 : env.size_supported st.log_fname = false) :
    st.ResetLogger env =
      some ({ st with
               status := .notSupported
                 "The underlying logger does not support GetLogFileSize()",
               logger := some { log_file_size := kDoNotSupportGetLogFileSize,
                                msgs := [], info_log_level := defaultInfoLogLevel } },
            { env with files :=
                if st.log_fname ∈ env.files then env.files
                else st.log_fname :: env.files }) := by
  unfold AutoRollLogger.ResetLogger Env.NewLogger
  simp [h, h2, Status.isOk, Logger.GetLogFileSize]

theorem ResetLogger_success (env : Env) (st : AutoRollLogger)
    (h : env.open_fails st.log_fname = false)
    (h2 : env.size_supported st.log_fname = true) :
    st.ResetLogger env =
      some ({ st with
               status := .ok,
               logger := some { log_file_size := 0, msgs := [],
                                info_log_level := defaultInfoLogLevel },
               cached_now := env.now_micros / 1000000,
               ctime := env.now_micros / 1000000,
               cached_now_access_count := 0 },
            { env with files :=
                if st.log_fname ∈ env.files then env.files
                else st.log_fname :: env.files }) := by
  unfold AutoRollLogger.ResetLogger Env.NewLogger
  simp only [h, Bool.false_eq_true, if_false, h2, if_true]
  norm_num [Status.isOk, Logger.GetLogFileSize, kDoNotSupportGetLogFileSize,
    Env.NowMicros]

theorem foldl_Logv_msgs (hs : List String) :
    ∀ l : Logger, (hs.foldl Logger.Logv l).msgs = l.msgs ++ hs := by
  induction hs with
  | nil => intro l; simp
  | cons h t ih =>
    intro l
    simp only [List.foldl_cons, ih, Logger.Logv]
    simp

theorem writeHeaderLoop_some (hs : List String) :
    ∀ (st : AutoRollLogger) (l : Logger), st.logger = some l →
      st.writeHeaderLoop hs =
        some { st with logger := some (hs.foldl Logger.Logv l) } := by
  induction hs with
  | nil =>
    intro st l h
    unfold AutoRollLogger.writeHeaderLoop
    cases st
    simp_all
  | cons h0 t ih =>
    intro st l h
    unfold AutoRollLogger.writeHeaderLoop AutoRollLogger.LogInternal
    rw [h]
    simp only
    rw [ih { st with logger := some (l.Logv h0) } (l.Logv h0) rfl]
    simp

theorem RollLogFile_open_fails (env : Env) (st : AutoRollLogger) :
    (AutoRollLogger.RollLogFile env st).2.open_fails = env.open_fails := by
  rw [RollLogFile_env, RenameFile_open_fails]

theorem RollLogFile_size_supported (env : Env) (st : AutoRollLogger) :
    (AutoRollLogger.RollLogFile env st).2.size_supported = env.size_supported := by
  rw [RollLogFile_env, RenameFile_size_supported]

theorem RollLogFile_now (env : Env) (st : AutoRollLogger) :
    (AutoRollLogger.RollLogFile env st).2.now_micros = env.now_micros := by
  rw [RollLogFile_env, RenameFile_now]

theorem RollLogFile_dirs (env : Env) (st : AutoRollLogger) :
    (AutoRollLogger.RollLogFile env st).2.dirs = env.dirs := by
  rw [RollLogFile_env, RenameFile_dirs]

theorem RenameFile_target_mem (env : Env) (src t : String) (h : src ∈ env.files) :
    t ∈ (env.RenameFile src t).2.files := by
  rw [Env.RenameFile, if_pos h]
  dsimp only
  split
  · assumption
  · exact List.mem_cons_self _ _

theorem RollLogFile_fresh (env : Env) (st : AutoRollLogger) :
    (AutoRollLogger.RollLogFile env st).1 ∉ env.files ∧
    ∃ k, (AutoRollLogger.RollLogFile env st).1 =
        OldInfoLogFileName st.log_path (env.NowMicros + k) ∧
      ∀ j, j < k → OldInfoLogFileName st.log_path (env.NowMicros + j) ∈ env.files := by
  obtain ⟨k0, hk0, hfree⟩ := exists_free_archived_name env st.log_path env.NowMicros
  obtain ⟨k, hk, hfree', hmin⟩ :=
    rollFindName_spec env st.log_path (env.files.length + 1) env.NowMicros
      ⟨k0, by omega, hfree⟩
  have hr : (AutoRollLogger.RollLogFile env st).1 =
      rollFindName env st.log_path env.NowMicros (env.files.length + 1) := rfl
  rw [hr, hk]
  exact ⟨hfree', k, rfl, hmin⟩

/-! ### C4 — archived names are fresh and collision-free -/

/-- C4: `RollLogFile` archives the active file under a name that does
not already exist: starting from the current clock timestamp it
increments the timestamp while a file exists at the computed archived
path (so the chosen name is the first free one, every earlier timestamp
being taken), renames the active file to that free name, leaves the
clock reading unchanged, and — since the chosen name then exists — a
second roll performed with the identical clock reading produces a
distinct archived filename. -/
theorem claim_C4_roll_archive_fresh (env : Env) (st : AutoRollLogger)
    (hact : st.log_fname ∈ env.files) :
    (AutoRollLogger.RollLogFile env st).1 ∉ env.files ∧
    (∃ k, (AutoRollLogger.RollLogFile env st).1 =
        OldInfoLogFileName st.log_path (env.NowMicros + k) ∧
      ∀ j, j < k → OldInfoLogFileName st.log_path (env.NowMicros + j) ∈ env.files) ∧
    (AutoRollLogger.RollLogFile env st).1 ∈ (AutoRollLogger.RollLogFile env st).2.files ∧
    (AutoRollLogger.RollLogFile env st).2.NowMicros = env.NowMicros ∧
    (AutoRollLogger.RollLogFile (AutoRollLogger.RollLogFile env st).2 st).1 ≠
      (AutoRollLogger.RollLogFile env st).1 := by
  obtain ⟨hfresh, hfirst⟩ := RollLogFile_fresh env st
  have hmem : (AutoRollLogger.RollLogFile env st).1 ∈
      (AutoRollLogger.RollLogFile env st).2.files := by
    rw [RollLogFile_env]
    exact RenameFile_target_mem env st.log_fname _ hact
  have hnow : (AutoRollLogger.RollLogFile env st).2.NowMicros = env.NowMicros :=
    RollLogFile_now env st
  refine ⟨hfresh, hfirst, hmem, hnow, ?_⟩
  intro hcontra
  have hfresh2 := (RollLogFile_fresh (AutoRollLogger.RollLogFile env st).2 st).1
  rw [hcontra] at hfresh2
  exact hfresh2 hmem

/-! ### Evaluation lemmas for the roll branch and for `Logv` -/

/-- The sink state right after `Logv` has evaluated its roll predicate:
with a positive age threshold the `LogExpired()` call has mutated the
cached-clock bookkeeping; otherwise the state is untouched. -/
def AutoRollLogger.afterPredicate (env : Env) (st : AutoRollLogger) : AutoRollLogger :=
  if 0 < st.kLogFileTimeToRoll then (st.LogExpired env).2 else st

theorem afterPredicate_logger (env : Env) (st : AutoRollLogger) :
    (st.afterPredicate env).logger = st.logger := by
  unfold AutoRollLogger.afterPredicate
  split
  · exact LogExpired_logger _ _
  · rfl

theorem afterPredicate_headers (env : Env) (st : AutoRollLogger) :
    (st.afterPredicate env).headers = st.headers := by
  unfold AutoRollLogger.afterPredicate
  split
  · exact LogExpired_headers _ _
  · rfl

theorem afterPredicate_log_fname (env : Env) (st : AutoRollLogger) :
    (st.afterPredicate env).log_fname = st.log_fname := by
  unfold AutoRollLogger.afterPredicate
  split
  · exact LogExpired_log_fname _ _
  · rfl

theorem afterPredicate_kMax (env : Env) (st : AutoRollLogger) :
    (st.afterPredicate env).kMaxLogFileSize = st.kMaxLogFileSize := by
  unfold AutoRollLogger.afterPredicate
  split
  · exact LogExpired_kMax _ _
  · rfl

theorem doRoll_flag (env : Env) (st : AutoRollLogger) (msg : String) :
    ∀ st' env' r, st.doRoll env msg = some (st', env', r) → r = true := by
  intro st' env' r h
  unfold AutoRollLogger.doRoll at h
  split at h
  · exact absurd h (by simp)
  · split at h
    · simp only [Option.some.injEq, Prod.mk.injEq] at h
      exact h.2.2.symm
    · split at h
      · exact absurd h (by simp)
      · split at h
        · exact absurd h (by simp)
        · simp only [Option.some.injEq, Prod.mk.injEq] at h
          exact h.2.2.symm

theorem doRoll_fail (env : Env) (st : AutoRollLogger) (msg : String)
    (hopen : env.open_fails st.log_fname = true) :
    st.doRoll env msg =
      some ({ st with status := .ioError st.log_fname, logger := none },
            (AutoRollLogger.RollLogFile env st).2, true) := by
  unfold AutoRollLogger.doRoll
  rw [ResetLogger_open_fail _ _ (by rw [RollLogFile_open_fails]; exact hopen)]
  simp [Status.isOk]

theorem doRoll_unsupported (env : Env) (st : AutoRollLogger) (msg : String)
    (hopen : env.open_fails st.log_fname = false)
    (hsize : env.size_supported st.log_fname = false) :
    ∃ st' env', st.doRoll env msg = some (st', env', true) ∧
      st'.status =
        .notSupported "The underlying logger does not support GetLogFileSize()" := by
  unfold AutoRollLogger.doRoll
  rw [ResetLogger_unsupported _ _ (by rw [RollLogFile_open_fails]; exact hopen)
        (by rw [RollLogFile_size_supported]; exact hsize)]
  simp [Status.isOk]

theorem doRoll_success (env : Env) (st : AutoRollLogger) (msg : String)
    (hopen : env.open_fails st.log_fname = false)
    (hsize : env.size_supported st.log_fname = true) :
    ∃ st' env', st.doRoll env msg = some (st', env', true) ∧
      st'.status = .ok ∧ st'.headers = st.headers ∧
      st'.ctime = env.NowMicros / 1000000 ∧
      ∃ l', st'.logger = some l' ∧ l'.msgs = st.headers ++ [msg] := by
  unfold AutoRollLogger.doRoll
  rw [ResetLogger_success _ _ (by rw [RollLogFile_open_fails]; exact hopen)
        (by rw [RollLogFile_size_supported]; exact hsize)]
  dsimp only
  rw [show (Status.ok).isOk = true from rfl]
  simp only [Bool.not_true, Bool.false_eq_true, if_false, ite_false]
  unfold AutoRollLogger.WriteHeaderInfo
  rw [writeHeaderLoop_some _ _ _ rfl]
  dsimp only
  refine ⟨_, _, rfl, rfl, rfl, ?_, _, rfl, ?_⟩
  · rw [RollLogFile_now]
    rfl
  · simp [Logger.Logv, foldl_Logv_msgs]

theorem doRoll_isSome (env : Env) (st : AutoRollLogger) (msg : String) :
    ∃ x, st.doRoll env msg = some x := by
  by_cases hopen : env.open_fails st.log_fname = true
  · exact ⟨_, doRoll_fail env st msg hopen⟩
  · have hopen' : env.open_fails st.log_fname = false := by simpa using hopen
    by_cases hsize : env.size_supported st.log_fname = true
    · obtain ⟨st', env', h, _⟩ := doRoll_success env st msg hopen' hsize
      exact ⟨_, h⟩
    · have hsize' : env.size_supported st.log_fname = false := by simpa using hsize
      obtain ⟨st', env', h, _⟩ := doRoll_unsupported env st msg hopen' hsize'
      exact ⟨_, h⟩

theorem Logv_eq_ite (env : Env) (st : AutoRollLogger) (msg : String) (l : Logger)
    (hl : st.logger = some l) :
    st.Logv env msg =
      if (0 < st.kLogFileTimeToRoll ∧ (st.LogExpired env).1 = true) ∨
         (0 < st.kMaxLogFileSize ∧ st.kMaxLogFileSize ≤ l.GetLogFileSize) then
        AutoRollLogger.doRoll env (st.afterPredicate env) msg
      else
        some ({ st.afterPredicate env with logger := some (l.Logv msg) },
              env, false) := by
  have hmax := LogExpired_kMax env st
  have hlog := LogExpired_logger env st
  unfold AutoRollLogger.Logv AutoRollLogger.afterPredicate
  by_cases hT : 0 < st.kLogFileTimeToRoll <;>
    by_cases hE : (st.LogExpired env).1 = true <;>
      by_cases hS : 0 < st.kMaxLogFileSize <;>
        by_cases hsz : st.kMaxLogFileSize ≤ l.GetLogFileSize <;>
          simp_all [hmax, hlog, hl]
  all_goals
    rw [decide_eq_false (by omega), if_neg (by omega)]

/-! ### Concrete fixtures used by witnesses and counterexamples -/

/-- A filesystem with an active log file at `d/LOG`, a working clock,
and a fault-free `NewLogger`. -/
def envW : Env :=
  { now_micros := 42000000, files := ["d/LOG"], dirs := ["d"],
    open_fails := fun _ => false, size_supported := fun _ => true }

/-- An `Env` whose `NewLogger` always fails. -/
def envWFail : Env := { envW with open_fails := fun _ => true }

/-- An `Env` whose writers cannot report their size. -/
def envWNoSize : Env := { envW with size_supported := fun _ => false }

/-- A current writer that has reached the size threshold of `stW`. -/
def loggerW : Logger := { log_file_size := 10, msgs := ["m"], info_log_level := 0 }

/-- A healthy sink with a 10-byte size threshold, no age threshold, and
two retained headers. -/
def stW : AutoRollLogger :=
  { log_path := "d", log_fname := "d/LOG",
    kMaxLogFileSize := 10, kLogFileTimeToRoll := 0, status := .ok,
    logger := some loggerW, ctime := 0, cached_now := 0,
    cached_now_access_count := 0, call_NowMicros_every_N_records := 100,
    headers := ["h1", "h2"], info_log_level := 0 }

/-- An empty current writer (below any positive size threshold). -/
def loggerW0 : Logger := { log_file_size := 0, msgs := [], info_log_level := 0 }

/-- `stW` with an empty current writer, so no roll fires. -/
def stW0 : AutoRollLogger := { stW with logger := some loggerW0 }

/-- A sink with only an age threshold (no size threshold requested). -/
def stWAgeOnly : AutoRollLogger :=
  { stW with kMaxLogFileSize := 0, kLogFileTimeToRoll := 60 }

/-- A formatted message one character past what the 1024-byte
`vsnprintf` buffer can hold. -/
def longMsg : String := String.mk (List.replicate MAXBUFFERSIZE 'a')

/-! ### C9 — filename policy -/

/-- Spec formula: `ActivePath(dir) = dir + "/LOG"`. -/
def ActivePath (dir : String) : String := dir ++ "/LOG"

/-- Spec formula: `ArchivedPath(dir, ts) = dir + "/LOG.old." + decimal(ts)`,
`decimal` being the usual decimal rendering of the timestamp. -/
def ArchivedPath (dir : String) (ts : Nat) : String :=
  dir ++ "/LOG.old." ++ decimalString ts

/-- C9: the filename policy functions are pure and deterministic; for
every directory `dir` the active path is `dir + "/LOG"`, and for every
`dir` and timestamp `ts` the archived path is `dir + "/LOG.old."`
followed by the decimal rendering of `ts`.  Being plain functions of
their arguments they have no hidden state, and neither consults the
filesystem (no collision handling in the policy itself). -/
theorem claim_C9_filename_policy (dir : String) (ts : Nat) :
    InfoLogFileName dir = ActivePath dir ∧
    OldInfoLogFileName dir ts = ArchivedPath dir ts :=
  ⟨rfl, rfl⟩

/-! ### C10 — LogHeader frame -/

/-- C10: `LogHeader` appends the eagerly formatted (truncated) string to
the header sequence and writes the original message to the current
writer, and nothing else: it takes no `Env` (so it can consult neither
the roll predicate, the clock, nor the filesystem), and it leaves the
writer handle (merely extended by the message), the epoch timestamp, the
cached clock and its access counter, and the stored status unchanged —
regardless of how large the current file already is, so a file can grow
past any threshold through `LogHeader` alone. -/
theorem claim_C10_logheader_frame (st : AutoRollLogger) (msg : String) (l : Logger)
    (hl : st.logger = some l) :
    st.LogHeader msg =
      some { st with headers := st.headers ++ [AutoRollLogger.ValistToString msg],
                     logger := some (l.Logv msg) } ∧
    ∀ st', st.LogHeader msg = some st' →
      st'.ctime = st.ctime ∧ st'.cached_now = st.cached_now ∧
      st'.cached_now_access_count = st.cached_now_access_count ∧
      st'.status = st.status ∧
      ∃ l', st'.logger = some l' ∧ l'.msgs = l.msgs ++ [msg] := by
  have heq : st.LogHeader msg =
      some { st with headers := st.headers ++ [AutoRollLogger.ValistToString msg],
                     logger := some (l.Logv msg) } := by
    unfold AutoRollLogger.LogHeader
    rw [hl]
  refine ⟨heq, ?_⟩
  intro st' h
  rw [heq] at h
  have h' := Option.some.inj h
  rw [← h']
  refine ⟨rfl, rfl, rfl, rfl, l.Logv msg, rfl, ?_⟩
  simp [Logger.Logv]

theorem claim_C10_witness :
    stW.LogHeader "x" =
      some { stW with headers := stW.headers ++ [AutoRollLogger.ValistToString "x"],
                      logger := some (loggerW.Logv "x") } :=
  (claim_C10_logheader_frame stW "x" loggerW rfl).1

/-! ### C5 — ResetLogger -/

/-- C5 as stated is false on the code: `ResetLogger` rejects a writer
that cannot report its size even when no size threshold was requested.
Here the sink has `kMaxLogFileSize = 0` (no size threshold) and an age
threshold of 60s, the open succeeds, the writer does not report a size —
and the resulting status is `NotSupported`, not acceptance. -/
theorem claim_C5_counterexample :
    stWAgeOnly.kMaxLogFileSize = 0 ∧
    (stWAgeOnly.ResetLogger envWNoSize).map (fun r => r.1.status) =
      some (.notSupported "The underlying logger does not support GetLogFileSize()") :=
  ⟨rfl, rfl⟩

/-- C5 (amended): when the open itself succeeds, Initialize/Reset
returns an Unsupported error exactly when the newly opened writer cannot
report its file size — regardless of whether a size threshold was
requested.  On success it records the current time (in seconds) as the
epoch start and resets the clock-access counter. -/
theorem claim_C5_amended_reset (env : Env) (st : AutoRollLogger)
    (hopen : env.open_fails st.log_fname = false) :
    ∃ st' env', st.ResetLogger env = some (st', env') ∧
      (st'.status.isOk = false ↔ env.size_supported st.log_fname = false) ∧
      (env.size_supported st.log_fname = false →
        st'.status =
          .notSupported "The underlying logger does not support GetLogFileSize()") ∧
      (env.size_supported st.log_fname = true →
        st'.status = .ok ∧ st'.ctime = env.NowMicros / 1000000 ∧
        st'.cached_now = env.NowMicros / 1000000 ∧
        st'.cached_now_access_count = 0) := by
  by_cases hs : env.size_supported st.log_fname = true
  · rw [ResetLogger_success env st hopen hs]
    refine ⟨_, _, rfl, ?_, ?_, ?_⟩ <;> simp [hs, Status.isOk, Env.NowMicros]
  · have hs' : env.size_supported st.log_fname = false := by simpa using hs
    rw [ResetLogger_unsupported env st hopen hs']
    refine ⟨_, _, rfl, ?_, ?_, ?_⟩ <;> simp [hs', Status.isOk]

theorem claim_C5_witness :
    ∃ st' env', stW.ResetLogger envW = some (st', env') ∧
      (st'.status.isOk = false ↔ envW.size_supported stW.log_fname = false) ∧
      (envW.size_supported stW.log_fname = false →
        st'.status =
          .notSupported "The underlying logger does not support GetLogFileSize()") ∧
      (envW.size_supported stW.log_fname = true →
        st'.status = .ok ∧ st'.ctime = envW.NowMicros / 1000000 ∧
        st'.cached_now = envW.NowMicros / 1000000 ∧
        st'.cached_now_access_count = 0) :=
  claim_C5_amended_reset envW stW rfl

/-! ### C8 — message truncation -/

set_option maxRecDepth 10000

/-- C8 as stated is false on the code: the ordinary `Logv` path hands
the formatted message to the underlying writer verbatim — no truncation
happens in this class on that path.  A message of 1024 characters logged
through a sink that does not roll is written with its full 1024-character
length, exceeding the 1023-character bound `ValistToString` enforces. -/
theorem claim_C8_counterexample :
    MAXBUFFERSIZE ≤ longMsg.length ∧
    (stW0.Logv envW longMsg).map
        (fun r => (r.1.logger.map (fun l => l.msgs.map String.length), r.2.2)) =
      some (some [MAXBUFFERSIZE], false) := by
  constructor
  · have h : (List.replicate MAXBUFFERSIZE 'a').length = MAXBUFFERSIZE :=
      List.length_replicate _ _
    have h' : longMsg.length = MAXBUFFERSIZE := h
    omega
  · rfl

/-- C8 (amended): truncation applies to the retained header copies:
`ValistToString` bounds its result to `MAXBUFFERSIZE - 1` characters (and
is the identity below the bound), so every header retained by
`LogHeader` — and hence every header replayed into a fresh file — is
bounded.  The direct writes (the ordinary `Logv` path and `LogHeader`'s
immediate write) pass the formatted message to the underlying writer
unmodified. -/
theorem claim_C8_amended_truncation (st : AutoRollLogger) (msg : String) (l : Logger)
    (hl : st.logger = some l) :
    (AutoRollLogger.ValistToString msg).length ≤ MAXBUFFERSIZE - 1 ∧
    (msg.length ≤ MAXBUFFERSIZE - 1 → AutoRollLogger.ValistToString msg = msg) ∧
    st.LogHeader msg =
      some { st with headers := st.headers ++ [AutoRollLogger.ValistToString msg],
                     logger := some (l.Logv msg) } ∧
    (l.Logv msg).msgs = l.msgs ++ [msg] := by
  refine ⟨?_, ?_, ?_, ?_⟩
  · have h1 : (msg.data.take (MAXBUFFERSIZE - 1)).length ≤ MAXBUFFERSIZE - 1 := by
      rw [List.length_take]
      exact Nat.min_le_left _ _
    exact h1
  · intro hle
    have hlen : msg.data.length ≤ MAXBUFFERSIZE - 1 := hle
    unfold AutoRollLogger.ValistToString
    rw [List.take_of_length_le hlen]
  · unfold AutoRollLogger.LogHeader
    rw [hl]
  · simp [Logger.Logv]

theorem claim_C8_witness :
    (AutoRollLogger.ValistToString longMsg).length ≤ MAXBUFFERSIZE - 1 :=
  (claim_C8_amended_truncation stW longMsg loggerW rfl).1

/-! ### C1 — the roll predicate and the amortized clock -/

/-- `k` consecutive `LogExpired()` calls against the same environment
(the cached-clock amortization is only observable across repeated
calls). -/
def iterLogExpired (env : Env) (st : AutoRollLogger) : Nat → AutoRollLogger
  | 0 => st
  | k + 1 => ((iterLogExpired env st k).LogExpired env).2

theorem LogExpired_eq (env : Env) (st : AutoRollLogger) :
    (st.LogExpired env).1 = decide (st.ctime + st.kLogFileTimeToRoll ≤
        (if st.call_NowMicros_every_N_records ≤ st.cached_now_access_count then
          env.NowMicros / 1000000 else st.cached_now)) ∧
    (st.LogExpired env).2.cached_now =
        (if st.call_NowMicros_every_N_records ≤ st.cached_now_access_count then
          env.NowMicros / 1000000 else st.cached_now) ∧
    (st.LogExpired env).2.cached_now_access_count =
        (if st.call_NowMicros_every_N_records ≤ st.cached_now_access_count then 0
         else st.cached_now_access_count) + 1 := by
  simp only [AutoRollLogger.LogExpired]
  split <;> simp_all

theorem iterLogExpired_no_refresh (env : Env) (st : AutoRollLogger)
    (h0 : st.cached_now_access_count = 0) :
    ∀ k, k ≤ st.call_NowMicros_every_N_records →
      (iterLogExpired env st k).cached_now = st.cached_now ∧
      (iterLogExpired env st k).cached_now_access_count = k ∧
      (iterLogExpired env st k).call_NowMicros_every_N_records =
        st.call_NowMicros_every_N_records := by
  intro k
  induction k with
  | zero => intro _; exact ⟨rfl, h0, rfl⟩
  | succ k ih =>
    intro hk
    obtain ⟨hc, hcnt, hN⟩ := ih (by omega)
    have hlt : ¬ (iterLogExpired env st k).call_NowMicros_every_N_records ≤
        (iterLogExpired env st k).cached_now_access_count := by
      rw [hcnt, hN]; omega
    have hstep : iterLogExpired env st (k + 1) =
        ((iterLogExpired env st k).LogExpired env).2 := rfl
    rw [hstep]
    simp only [AutoRollLogger.LogExpired]
    rw [if_neg hlt]
    refine ⟨hc, ?_, hN⟩
    rw [hcnt]

theorem iterLogExpired_refresh (env : Env) (st : AutoRollLogger)
    (h0 : st.cached_now_access_count = 0) :
    (iterLogExpired env st (st.call_NowMicros_every_N_records + 1)).cached_now =
      env.NowMicros / 1000000 := by
  obtain ⟨hc, hcnt, hN⟩ := iterLogExpired_no_refresh env st h0
    st.call_NowMicros_every_N_records (le_refl _)
  have hge : (iterLogExpired env st
      st.call_NowMicros_every_N_records).call_NowMicros_every_N_records ≤
      (iterLogExpired env st
        st.call_NowMicros_every_N_records).cached_now_access_count := by
    rw [hcnt, hN]
  show ((iterLogExpired env st _).LogExpired env).2.cached_now = _
  simp only [AutoRollLogger.LogExpired]
  rw [if_pos hge]

/-- C1: a `Logv` call (on a sink with a live writer) performs a rotation
if and only if either the age threshold is positive and `LogExpired()`
returned true, or the size threshold is positive and the current
writer's reported size is at least the threshold (and the call never
dereferences a null writer under these conditions).  `LogExpired()`
returns whether the cached "now" (refreshed from the clock only when the
access counter has reached the amortization constant N, and otherwise
left stale) is at least `ctime + kLogFileTimeToRoll`; starting from a
reset counter, N consecutive calls leave the cached "now" untouched and
the (N+1)-st refreshes it from the clock. -/
theorem claim_C1_roll_predicate (env : Env) (st : AutoRollLogger) (msg : String)
    (l : Logger) (hl : st.logger = some l) :
    (∃ x, st.Logv env msg = some x) ∧
    (∀ st' env' r, st.Logv env msg = some (st', env', r) →
       (r = true ↔ ((0 < st.kLogFileTimeToRoll ∧ (st.LogExpired env).1 = true) ∨
                    (0 < st.kMaxLogFileSize ∧
                     st.kMaxLogFileSize ≤ l.GetLogFileSize)))) ∧
    ((st.LogExpired env).1 = decide (st.ctime + st.kLogFileTimeToRoll ≤
        (if st.call_NowMicros_every_N_records ≤ st.cached_now_access_count then
          env.NowMicros / 1000000 else st.cached_now))) ∧
    ((st.LogExpired env).2.cached_now =
        (if st.call_NowMicros_every_N_records ≤ st.cached_now_access_count then
          env.NowMicros / 1000000 else st.cached_now)) ∧
    ((st.LogExpired env).2.cached_now_access_count =
        (if st.call_NowMicros_every_N_records ≤ st.cached_now_access_count then 0
         else st.cached_now_access_count) + 1) ∧
    (st.cached_now_access_count = 0 →
      (∀ k, k ≤ st.call_NowMicros_every_N_records →
        (iterLogExpired env st k).cached_now = st.cached_now) ∧
      (iterLogExpired env st (st.call_NowMicros_every_N_records + 1)).cached_now =
        env.NowMicros / 1000000) := by
  obtain ⟨he1, he2, he3⟩ := LogExpired_eq env st
  refine ⟨?_, ?_, he1, he2, he3, ?_⟩
  · rw [Logv_eq_ite env st msg l hl]
    by_cases hcond : (0 < st.kLogFileTimeToRoll ∧ (st.LogExpired env).1 = true) ∨
        (0 < st.kMaxLogFileSize ∧ st.kMaxLogFileSize ≤ l.GetLogFileSize)
    · rw [if_pos hcond]; exact doRoll_isSome env _ msg
    · rw [if_neg hcond]; exact ⟨_, rfl⟩
  · intro st' env' r h
    rw [Logv_eq_ite env st msg l hl] at h
    by_cases hcond : (0 < st.kLogFileTimeToRoll ∧ (st.LogExpired env).1 = true) ∨
        (0 < st.kMaxLogFileSize ∧ st.kMaxLogFileSize ≤ l.GetLogFileSize)
    · rw [if_pos hcond] at h
      have hr := doRoll_flag env _ msg st' env' r h
      simp [hr, hcond]
    · rw [if_neg hcond] at h
      simp only [Option.some.injEq, Prod.mk.injEq] at h
      have hr : r = false := h.2.2.symm
      simp [hr, hcond]
  · intro h0
    exact ⟨fun k hk => (iterLogExpired_no_refresh env st h0 k hk).1,
           iterLogExpired_refresh env st h0⟩

theorem claim_C1_witness : ∃ x, stW.Logv envW "x" = some x :=
  (claim_C1_roll_predicate envW stW "x" loggerW rfl).1

/-! ### C2 — headers replayed before the triggering message -/

/-- C2: after every rotation in `Logv` whose re-initialization succeeds
(the open at the canonical path works and the fresh writer reports its
size), the new file holds exactly the retained headers, in original
insertion order, followed by the triggering call's own message — so no
ordinary message appears in a fresh file before its headers. -/
theorem claim_C2_headers_before_message (env : Env) (st : AutoRollLogger)
    (msg : String) (l : Logger) (hl : st.logger = some l)
    (hopen : env.open_fails st.log_fname = false)
    (hsize : env.size_supported st.log_fname = true) :
    ∀ st' env', st.Logv env msg = some (st', env', true) →
      st'.status = .ok ∧ st'.headers = st.headers ∧
      ∃ l', st'.logger = some l' ∧ l'.msgs = st.headers ++ [msg] := by
  intro st' env' h
  rw [Logv_eq_ite env st msg l hl] at h
  by_cases hcond : (0 < st.kLogFileTimeToRoll ∧ (st.LogExpired env).1 = true) ∨
      (0 < st.kMaxLogFileSize ∧ st.kMaxLogFileSize ≤ l.GetLogFileSize)
  · rw [if_pos hcond] at h
    obtain ⟨st'', env'', heq, hok, hhd, hct, l', hlg, hmsgs⟩ :=
      doRoll_success env (st.afterPredicate env) msg
        (by rw [afterPredicate_log_fname]; exact hopen)
        (by rw [afterPredicate_log_fname]; exact hsize)
    rw [heq] at h
    simp only [Option.some.injEq, Prod.mk.injEq] at h
    obtain ⟨h1, -, -⟩ := h
    rw [← h1]
    rw [afterPredicate_headers] at hhd hmsgs
    exact ⟨hok, hhd, l', hlg, hmsgs⟩
  · rw [if_neg hcond] at h
    simp at h

/-- The post state of the size-triggered roll of `stW` under `envW`:
fresh epoch at 42s, fresh writer holding the replayed headers and the
triggering message. -/
def loggerC2post : Logger :=
  { log_file_size := 5, msgs := ["h1", "h2", "x"], info_log_level := 0 }

def stC2post : AutoRollLogger :=
  { stW with logger := some loggerC2post, cached_now := 42, ctime := 42 }

def envC2post : Env :=
  { envW with files := ["d/LOG", OldInfoLogFileName "d" 42000000] }

theorem claim_C2_witness :
    stC2post.status = .ok ∧ stC2post.headers = stW.headers ∧
    ∃ l', stC2post.logger = some l' ∧ l'.msgs = stW.headers ++ ["x"] :=
  claim_C2_headers_before_message envW stW "x" loggerW rfl rfl rfl
    stC2post envC2post (by rfl)

/-! ### C3 — behaviour on roll-time failure -/

/-- C3 as stated is false on the code: after a roll whose
re-initialization fails, the triggering call does return silently with
the stored status holding the error — but a SUBSEQUENT log call for that
epoch is not "silently dropped": `Logv` has no status guard (only a
release no-op `assert`), so the next call re-reads the cleared writer
handle when it evaluates the size predicate and dereferences null
(modelled `none`), crashing the caller instead of dropping the
message. -/
theorem claim_C3_counterexample :
    ∃ st1 env1, stW.Logv envWFail "x" = some (st1, env1, true) ∧
      st1.status.isOk = false ∧ st1.logger = none ∧
      st1.Logv env1 "y" = none := by
  exact ⟨_, _, rfl, rfl, rfl, rfl⟩

/-- C3 (amended): if re-initialization fails during a rotation, the
triggering `Logv` call returns without writing anything and without
raising — the sink afterwards holds the open error as its stored status
(inspectable via `GetStatus`), its writer handle is cleared, and its
headers are retained.  Subsequent calls are not guarded by the stored
status: one that re-enters the failing roll path is dropped the same
way, but one that consults the size predicate dereferences the cleared
handle (see the counterexample). -/
theorem claim_C3_amended_roll_failure (env : Env) (st : AutoRollLogger)
    (msg : String) (l : Logger) (hl : st.logger = some l)
    (hfail : env.open_fails st.log_fname = true) :
    ∀ st' env' r, st.Logv env msg = some (st', env', r) → r = true →
      st'.GetStatus = .ioError st.log_fname ∧
      (st'.GetStatus).isOk = false ∧
      st'.logger = none ∧ st'.headers = st.headers := by
  intro st' env' r h hr
  subst hr
  rw [Logv_eq_ite env st msg l hl] at h
  by_cases hcond : (0 < st.kLogFileTimeToRoll ∧ (st.LogExpired env).1 = true) ∨
      (0 < st.kMaxLogFileSize ∧ st.kMaxLogFileSize ≤ l.GetLogFileSize)
  · rw [if_pos hcond] at h
    rw [doRoll_fail env _ msg (by rw [afterPredicate_log_fname]; exact hfail)] at h
    simp only [Option.some.injEq, Prod.mk.injEq] at h
    obtain ⟨h1, -, -⟩ := h
    rw [← h1]
    refine ⟨?_, ?_, rfl, ?_⟩
    · show Status.ioError (st.afterPredicate env).log_fname = _
      rw [afterPredicate_log_fname]
    · rfl
    · show (st.afterPredicate env).headers = st.headers
      exact afterPredicate_headers env st
  · rw [if_neg hcond] at h
    simp at h

/-- The sink state after `stW`'s roll fails to reopen under
`envWFail`. -/
def stC3post : AutoRollLogger :=
  { stW with status := .ioError "d/LOG", logger := none }

def envC3post : Env :=
  { envWFail with files := [OldInfoLogFileName "d" 42000000] }

theorem claim_C3_witness :
    stC3post.GetStatus = .ioError stW.log_fname ∧
    (stC3post.GetStatus).isOk = false ∧
    stC3post.logger = none ∧ stC3post.headers = stW.headers :=
  claim_C3_amended_roll_failure envWFail stW "x" loggerW rfl rfl
    stC3post envC3post true (by rfl) rfl

theorem claim_C4_witness :
    (AutoRollLogger.RollLogFile (AutoRollLogger.RollLogFile envW stW).2 stW).1 ≠
      (AutoRollLogger.RollLogFile envW stW).1 :=
  (claim_C4_roll_archive_fresh envW stW (by decide)).2.2.2.2

/-! ### C6 and C7 — the factory -/

theorem NewLogger_ok (env : Env) (fname : String)
    (h : env.open_fails fname = false) :
    env.NewLogger fname =
      (.ok, some { log_file_size := if env.size_supported fname then 0
                     else kDoNotSupportGetLogFileSize,
                   msgs := [], info_log_level := defaultInfoLogLevel },
       { env with files :=
          if fname ∈ env.files then env.files else fname :: env.files }) := by
  simp [Env.NewLogger, h]

theorem NewLogger_dirs (env : Env) (fname : String) :
    (env.NewLogger fname).2.2.dirs = env.dirs := by
  unfold Env.NewLogger; split <;> rfl

theorem CreateDirIfMissing_self_mem (env : Env) (d : String) :
    d ∈ (env.CreateDirIfMissing d).2.dirs := by
  unfold Env.CreateDirIfMissing
  dsimp only
  split
  · assumption
  · exact List.mem_cons_self _ _

theorem ResetLogger_dirs (env : Env) (st : AutoRollLogger) :
    ∀ st' env', st.ResetLogger env = some (st', env') → env'.dirs = env.dirs := by
  intro st' env' h
  by_cases ho : env.open_fails st.log_fname = true
  · rw [ResetLogger_open_fail env st ho] at h
    simp only [Option.some.injEq, Prod.mk.injEq] at h
    rw [← h.2]
  · have ho' : env.open_fails st.log_fname = false := by simpa using ho
    by_cases hs : env.size_supported st.log_fname = true
    · rw [ResetLogger_success env st ho' hs] at h
      simp only [Option.some.injEq, Prod.mk.injEq] at h
      rw [← h.2]
    · have hs' : env.size_supported st.log_fname = false := by simpa using hs
      rw [ResetLogger_unsupported env st ho' hs'] at h
      simp only [Option.some.injEq, Prod.mk.injEq] at h
      rw [← h.2]

/-- C6: invoked with neither threshold positive, the factory renames any
pre-existing file at the active path to the timestamped archived name
(attempting the rename whether or not a prior file existed — a missing
source only makes the rename a failed no-op whose status is ignored),
opens a fresh non-rotating writer at the active path with no content,
and applies the requested minimum level to it. -/
theorem claim_C6_factory_plain (log_path : String) (env : Env)
    (log_level nRecords : Nat)
    (hopen : env.open_fails (InfoLogFileName log_path) = false) :
    ∃ s l env', CreateLogger log_path env 0 0 log_level nRecords =
        some (s, .plain l, env') ∧
      s = .ok ∧ l.msgs = [] ∧ l.info_log_level = log_level ∧
      InfoLogFileName log_path ∈ env'.files ∧
      (InfoLogFileName log_path ∈ env.files →
        OldInfoLogFileName log_path env.NowMicros ∈ env'.files) ∧
      (InfoLogFileName log_path ∉ env.files →
        env'.files = InfoLogFileName log_path :: env.files) := by
  have h1f : (env.CreateDirIfMissing log_path).2.files = env.files := rfl
  have h1o : (env.CreateDirIfMissing log_path).2.open_fails = env.open_fails := rfl
  have h1n : (env.CreateDirIfMissing log_path).2.NowMicros = env.NowMicros := rfl
  have h2o : ((env.CreateDirIfMissing log_path).2.RenameFile (InfoLogFileName log_path)
      (OldInfoLogFileName log_path
        (env.CreateDirIfMissing log_path).2.NowMicros)).2.open_fails =
      env.open_fails := by
    rw [RenameFile_open_fails, h1o]
  unfold CreateLogger
  rw [if_neg (by simp)]
  dsimp only
  rw [NewLogger_ok _ _ (by rw [h2o]; exact hopen)]
  dsimp only
  refine ⟨.ok, _, _, rfl, rfl, rfl, rfl, ?_, ?_, ?_⟩
  · split
    · assumption
    · exact List.mem_cons_self _ _
  · intro hmem
    have hmem1 : InfoLogFileName log_path ∈
        (env.CreateDirIfMissing log_path).2.files := by rw [h1f]; exact hmem
    have htgt := RenameFile_target_mem (env.CreateDirIfMissing log_path).2
      (InfoLogFileName log_path)
      (OldInfoLogFileName log_path (env.CreateDirIfMissing log_path).2.NowMicros)
      hmem1
    rw [h1n] at htgt
    split
    · exact htgt
    · exact List.mem_cons_of_mem _ htgt
  · intro hnm
    have hnm1 : InfoLogFileName log_path ∉
        (env.CreateDirIfMissing log_path).2.files := by rw [h1f]; exact hnm
    have hren : ((env.CreateDirIfMissing log_path).2.RenameFile
        (InfoLogFileName log_path)
        (OldInfoLogFileName log_path
          (env.CreateDirIfMissing log_path).2.NowMicros)).2 =
        (env.CreateDirIfMissing log_path).2 := by
      unfold Env.RenameFile
      rw [if_neg hnm1]
    rw [hren, h1f]
    rw [if_neg hnm]

theorem claim_C6_witness :
    ∃ s l env', CreateLogger "d" envW 0 0 3 100 = some (s, .plain l, env') ∧
      s = .ok ∧ l.msgs = [] ∧ l.info_log_level = 3 ∧
      InfoLogFileName "d" ∈ env'.files ∧
      (InfoLogFileName "d" ∈ envW.files →
        OldInfoLogFileName "d" envW.NowMicros ∈ env'.files) ∧
      (InfoLogFileName "d" ∉ envW.files →
        env'.files = InfoLogFileName "d" :: envW.files) :=
  claim_C6_factory_plain "d" envW 3 100 rfl

/-- C7: the factory ensures the target directory exists (every returned
environment contains it), and never hands back a broken rotating sink:
when either threshold is positive and the constructed sink's initial
status is an error, that sink is discarded, the error is returned and
the caller's handle is left unset; whenever a rotating sink is handed
out, the returned status is its (ok) status. -/
theorem claim_C7_factory_propagation (log_path : String) (env : Env)
    (log_max_size log_file_time_to_roll log_level nRecords : Nat) :
    (∀ s out env', CreateLogger log_path env log_max_size log_file_time_to_roll
        log_level nRecords = some (s, out, env') → log_path ∈ env'.dirs) ∧
    ((0 < log_file_time_to_roll ∨ 0 < log_max_size) →
      ∀ result env2,
        mkAutoRollLogger (env.CreateDirIfMissing log_path).2 log_path
          log_max_size log_file_time_to_roll log_level nRecords =
          some (result, env2) →
        result.GetStatus.isOk = false →
        CreateLogger log_path env log_max_size log_file_time_to_roll
          log_level nRecords = some (result.GetStatus, .unset, env2)) ∧
    (∀ s out env' sink, CreateLogger log_path env log_max_size
        log_file_time_to_roll log_level nRecords = some (s, out, env') →
      out = .rolling sink → s = sink.GetStatus ∧ s.isOk = true) := by
  refine ⟨?_, ?_, ?_⟩
  · intro s out env' h
    unfold CreateLogger at h
    dsimp only at h
    split at h
    · rcases hmk : mkAutoRollLogger (env.CreateDirIfMissing log_path).2 log_path
          log_max_size log_file_time_to_roll log_level nRecords with _ | ⟨result, env2⟩
      · rw [hmk] at h; exact absurd h (by simp)
      · rw [hmk] at h
        have hd : env2.dirs = (env.CreateDirIfMissing log_path).2.dirs :=
          ResetLogger_dirs _ _ _ _ hmk
        have hmem : log_path ∈ env2.dirs := by
          rw [hd]; exact CreateDirIfMissing_self_mem env log_path
        dsimp only at h
        split at h
        · simp only [Option.some.injEq, Prod.mk.injEq] at h
          rw [← h.2.2]; exact hmem
        · simp only [Option.some.injEq, Prod.mk.injEq] at h
          rw [← h.2.2]; exact hmem
    · rcases hNL : ((env.CreateDirIfMissing log_path).2.RenameFile
          (InfoLogFileName log_path)
          (OldInfoLogFileName log_path
            (env.CreateDirIfMissing log_path).2.NowMicros)).2.NewLogger
          (InfoLogFileName log_path) with ⟨s', lg, env3⟩
      rw [hNL] at h
      have hd3 : env3.dirs = (env.CreateDirIfMissing log_path).2.dirs := by
        have h2 := NewLogger_dirs ((env.CreateDirIfMissing log_path).2.RenameFile
          (InfoLogFileName log_path)
          (OldInfoLogFileName log_path
            (env.CreateDirIfMissing log_path).2.NowMicros)).2
          (InfoLogFileName log_path)
        rw [hNL] at h2
        dsimp only at h2
        rw [h2, RenameFile_dirs]
      have hmem : log_path ∈ env3.dirs := by
        rw [hd3]; exact CreateDirIfMissing_self_mem env log_path
      cases lg with
      | some l =>
        dsimp only at h
        simp only [Option.some.injEq, Prod.mk.injEq] at h
        rw [← h.2.2]; exact hmem
      | none =>
        dsimp only at h
        simp only [Option.some.injEq, Prod.mk.injEq] at h
        rw [← h.2.2]; exact hmem
  · intro hpos result env2 hmk hbad
    unfold CreateLogger
    dsimp only
    rw [if_pos hpos, hmk]
    dsimp only
    rw [if_pos (by rw [hbad]; simp)]
  · intro s out env' sink h hout
    unfold CreateLogger at h
    dsimp only at h
    split at h
    · rcases hmk : mkAutoRollLogger (env.CreateDirIfMissing log_path).2 log_path
          log_max_size log_file_time_to_roll log_level nRecords with _ | ⟨result, env2⟩
      · rw [hmk] at h; exact absurd h (by simp)
      · rw [hmk] at h
        dsimp only at h
        split at h
        · simp only [Option.some.injEq, Prod.mk.injEq] at h
          rw [← h.2.1] at hout
          exact LoggerOut.noConfusion hout
        · rename_i hok
          simp only [Option.some.injEq, Prod.mk.injEq] at h
          rw [← h.2.1] at hout
          have hres : result = sink := by
            have := LoggerOut.rolling.inj hout
            exact this
          have hok' : result.GetStatus.isOk = true := by
            by_contra hc
            exact hok (by simp [hc])
          constructor
          · rw [← h.1, hres]
          · rw [← h.1, hok']
    · rcases hNL : ((env.CreateDirIfMissing log_path).2.RenameFile
          (InfoLogFileName log_path)
          (OldInfoLogFileName log_path
            (env.CreateDirIfMissing log_path).2.NowMicros)).2.NewLogger
          (InfoLogFileName log_path) with ⟨s', lg, env3⟩
      rw [hNL] at h
      cases lg with
      | some l =>
        dsimp only at h
        simp only [Option.some.injEq, Prod.mk.injEq] at h
        rw [← h.2.1] at hout
        exact LoggerOut.noConfusion hout
      | none =>
        dsimp only at h
        simp only [Option.some.injEq, Prod.mk.injEq] at h
        rw [← h.2.1] at hout
        exact LoggerOut.noConfusion hout

/-- The sink the factory constructs (and discards) when `NewLogger`
fails at `d/LOG` under `envWFail`. -/
def resultC7 : AutoRollLogger :=
  { log_path := "d", log_fname := "d/LOG", kMaxLogFileSize := 10,
    kLogFileTimeToRoll := 0, status := .ioError "d/LOG", logger := none,
    ctime := 42, cached_now := 42, cached_now_access_count := 0,
    call_NowMicros_every_N_records := 100, headers := [], info_log_level := 3 }

theorem claim_C7_witness :
    CreateLogger "d" envWFail 10 0 3 100 =
      some (resultC7.GetStatus, .unset, envWFail) :=
  (claim_C7_factory_propagation "d" envWFail 10 0 3 100).2.1 (Or.inr (by omega))
    resultC7 envWFail (by rfl) (by rfl)

end Rocksutil
